import Mathlib

/-!
Verification development for the Flowise MCP (Model Context Protocol) tool
subsystem: the managed session registry, the MCPToolkit lifecycle
(initialize / cleanup / process spawning), configuration parsing and
fingerprinting, and node-level action selection.

The definitions below are shallow embeddings of the TypeScript source in
packages/components/nodes/tools/MCP (core.ts, CustomMCP.ts,
BraveSearchMCP.ts) and its registry-based variant. Asynchronous setTimeout
callbacks are modelled as explicit deferred actions evaluated against the
state that holds when the timer fires; JavaScript run-to-completion
semantics makes the synchronous bodies atomic, which the state-passing
style reflects.
-/

/-- Structured JSON-like values, the result type of JSON.parse and of the
object-literal evaluation fallback. Numeric literals are modelled as
integers; fractional numerals lie outside the modelled fragment (none of
the verified claims depends on them). -/
inductive JVal where
  | null : JVal
  | bool (b : Bool) : JVal
  | num (n : Int) : JVal
  | str (s : String) : JVal
  | arr (elems : List JVal) : JVal
  | obj (fields : List (String × JVal)) : JVal

/-- JavaScript truthiness of a structured value: null, false, 0 and the
empty string are falsy; every array and object is truthy. -/
def truthy : JVal → Bool
  | .null => false
  | .bool b => b
  | .num n => n != 0
  | .str s => s != ""
  | .arr _ => true
  | .obj _ => true

/-- Property access v.k on a structured value: a lookup in an object field
list, undefined (none) on all other values. -/
def getField (v : JVal) (k : String) : Option JVal :=
  match v with
  | .obj fields => fields.lookup k
  | _ => none

/-- JavaScript truthiness of a possibly-undefined value: undefined is
falsy. -/
def jfalsy (v : Option JVal) : Bool :=
  match v with
  | none => true
  | some w => !(truthy w)

/-- Whitespace accepted by the JSON grammar. -/
def isWs (c : Char) : Bool :=
  c = ' ' || c = '\t' || c = '\n' || c = '\r'

/-- Drop leading JSON whitespace. -/
def skipWs : List Char → List Char
  | [] => []
  | c :: rest => if isWs c then skipWs rest else c :: rest

/-- Decimal digit test. -/
def isDigit (c : Char) : Bool := '0' ≤ c && c ≤ '9'

/-- Value of one lowercase hexadecimal digit. -/
def hexVal (c : Char) : Option Nat :=
  if '0' ≤ c && c ≤ '9' then some (c.toNat - 48)
  else if 'a' ≤ c && c ≤ 'f' then some (c.toNat - 87)
  else if 'A' ≤ c && c ≤ 'F' then some (c.toNat - 55)
  else none

/-- Body of a JSON string literal after the opening quote: ordinary
characters, the named escapes, and 4-digit hex escapes, up to the closing
quote. Returns the decoded characters and the remaining input. -/
def parseStrChars : Nat → List Char → Option (List Char × List Char)
  | 0, _ => none
  | n+1, input =>
    match input with
    | [] => none
    | '"' :: rest => some ([], rest)
    | '\\' :: esc :: rest =>
      let cont : Char → Option (List Char × List Char) := fun c =>
        Option.map (fun p => (c :: p.1, p.2)) (parseStrChars n rest)
      if esc = '"' then cont '"'
      else if esc = '\\' then cont '\\'
      else if esc = '/' then cont '/'
      else if esc = 'b' then cont '\x08'
      else if esc = 'f' then cont '\x0c'
      else if esc = 'n' then cont '\n'
      else if esc = 'r' then cont '\r'
      else if esc = 't' then cont '\t'
      else if esc = 'u' then
        match rest with
        | h1 :: h2 :: h3 :: h4 :: rest2 =>
          match hexVal h1, hexVal h2, hexVal h3, hexVal h4 with
          | some a, some b, some c, some d =>
            Option.map (fun p => (Char.ofNat (4096*a + 256*b + 16*c + d) :: p.1, p.2))
              (parseStrChars n rest2)
          | _, _, _, _ => none
        | _ => none
      else none
    | c :: rest =>
      if c = '\\' then none
      else if c.toNat < 32 then none
      else Option.map (fun p => (c :: p.1, p.2)) (parseStrChars n rest)

/-- Longest prefix of decimal digits, with the rest of the input. -/
def takeDigits : List Char → List Char × List Char
  | [] => ([], [])
  | c :: rest =>
    if isDigit c then
      let p := takeDigits rest
      (c :: p.1, p.2)
    else ([], c :: rest)

/-- Decimal value of a digit sequence. -/
def digitsToNat (ds : List Char) : Nat :=
  ds.foldl (fun acc c => 10 * acc + (c.toNat - 48)) 0

/-- Integer numeral at the head of the input (sign already consumed).
Fractional and exponent forms are outside the modelled fragment and
rejected. -/
def parseNumFrom (neg : Bool) (input : List Char) : Option (JVal × List Char) :=
  let p := takeDigits input
  match p.1 with
  | [] => none
  | d :: ds =>
    if d = '0' && ds ≠ [] then none
    else
      match p.2 with
      | '.' :: _ => none
      | 'e' :: _ => none
      | 'E' :: _ => none
      | rest =>
        let v : Nat := digitsToNat (d :: ds)
        some (.num (if neg then -(v : Int) else (v : Int)), rest)

/-- First character of a JavaScript identifier. -/
def isIdentStart (c : Char) : Bool := c.isAlpha || c = '_' || c = '$'

/-- Subsequent character of a JavaScript identifier. -/
def isIdentChar (c : Char) : Bool := isIdentStart c || isDigit c

/-- Longest identifier continuation, with the rest of the input. -/
def takeIdent : List Char → List Char × List Char
  | [] => ([], [])
  | c :: rest =>
    if isIdentChar c then
      let p := takeIdent rest
      (c :: p.1, p.2)
    else ([], c :: rest)

/-- Object key: a quoted string in the strict grammar; in the relaxed
(object-literal) grammar additionally a bare identifier. -/
def parseKey (rel : Bool) (fuel : Nat) (input : List Char) : Option (String × List Char) :=
  match input with
  | '"' :: rest => Option.map (fun p => (String.mk p.1, p.2)) (parseStrChars fuel rest)
  | c :: rest =>
    if rel && isIdentStart c then
      let p := takeIdent rest
      some (String.mk (c :: p.1), p.2)
    else none
  | [] => none

mutual

/-- Recursive descent over the JSON grammar (rel = false) or the relaxed
JavaScript object-literal grammar (rel = true: bare identifier keys and
trailing commas are additionally accepted). Fuel bounds recursion depth and
is chosen generously by the callers. -/
def parseVal : Bool → Nat → List Char → Option (JVal × List Char)
  | _, 0, _ => none
  | rel, n+1, input =>
    match skipWs input with
    | 'n' :: 'u' :: 'l' :: 'l' :: rest => some (.null, rest)
    | 't' :: 'r' :: 'u' :: 'e' :: rest => some (.bool true, rest)
    | 'f' :: 'a' :: 'l' :: 's' :: 'e' :: rest => some (.bool false, rest)
    | '"' :: rest =>
      Option.map (fun p => (JVal.str (String.mk p.1), p.2)) (parseStrChars (n+1) rest)
    | '[' :: rest =>
      (match skipWs rest with
       | ']' :: rest2 => some (.arr [], rest2)
       | other => Option.map (fun p => (JVal.arr p.1, p.2)) (parseArrLoop rel n other))
    | '\x7b' :: rest =>
      (match skipWs rest with
       | '\x7d' :: rest2 => some (.obj [], rest2)
       | other => Option.map (fun p => (JVal.obj p.1, p.2)) (parseObjLoop rel n other))
    | '-' :: rest => parseNumFrom true rest
    | c :: rest => if isDigit c then parseNumFrom false (c :: rest) else none
    | [] => none

/-- Comma-separated array elements up to the closing bracket; expects an
element at the head of the input. -/
def parseArrLoop : Bool → Nat → List Char → Option (List JVal × List Char)
  | _, 0, _ => none
  | rel, n+1, input =>
    match parseVal rel n input with
    | none => none
    | some (v, rest) =>
      match skipWs rest with
      | ',' :: rest2 =>
        (match skipWs rest2 with
         | ']' :: rest3 => if rel then some ([v], rest3) else none
         | more => Option.map (fun p => (v :: p.1, p.2)) (parseArrLoop rel n more))
      | ']' :: rest2 => some ([v], rest2)
      | _ => none

/-- Comma-separated key-value pairs up to the closing brace; expects a key
at the head of the input. -/
def parseObjLoop : Bool → Nat → List Char → Option (List (String × JVal) × List Char)
  | _, 0, _ => none
  | rel, n+1, input =>
    match parseKey rel (n+1) input with
    | none => none
    | some (k, rest) =>
      match skipWs rest with
      | ':' :: rest2 =>
        (match parseVal rel n rest2 with
         | none => none
         | some (v, rest3) =>
           match skipWs rest3 with
           | ',' :: rest4 =>
             (match skipWs rest4 with
              | '\x7d' :: rest5 => if rel then some ([(k, v)], rest5) else none
              | more => Option.map (fun p => ((k, v) :: p.1, p.2)) (parseObjLoop rel n more))
           | '\x7d' :: rest4 => some ([(k, v)], rest4)
           | _ => none)
      | _ => none

end

/-- Run the grammar over a whole character list: one value, then only
trailing whitespace. -/
def jsonParseChars (rel : Bool) (cs : List Char) : Option JVal :=
  match parseVal rel (4 * cs.length + 16) cs with
  | some (v, rest) => if skipWs rest = [] then some v else none
  | none => none

/-- Models JSON.parse on the configuration text: strict JSON grammar,
failing (none) on any deviation. -/
def jsonParse (s : String) : Option JVal := jsonParseChars false s.data

/-- Models the fallback evaluation of the configuration text as a
JavaScript object literal, Function with a return of the input text, in
Custom_MCP.convertToValidJSONString, restricted to literal expressions
(object, array, string, integer, boolean and null literals, with bare
identifier keys and trailing commas). -/
def relaxedEval (s : String) : Option JVal := jsonParseChars true s.data

/-- Models Custom_MCP.convertToValidJSONString composed with the JSON.parse
that immediately follows it in createAndInitToolkit and getTools: first try
strict JSON.parse and use the text as is; if that throws, evaluate the text
as a JavaScript object literal and use the resulting value (the source
re-serializes it with JSON.stringify and re-parses, which round-trips to
the same structured value on the literal fragment); if that also throws,
fail with the Invalid MCP Server Config format error (none). -/
def parseServerParams (s : String) : Option JVal :=
  match jsonParse s with
  | some v => some v
  | none => relaxedEval s

/-- Lowercase hexadecimal digit character for a value below 16. -/
def hexDigit (n : Nat) : Char :=
  if n < 10 then Char.ofNat (48 + n) else Char.ofNat (87 + n)

/-- Escape of one character inside a JSON.stringify string literal: quote
and backslash get a backslash escape, the five named control characters get
their short escapes, the remaining control characters get a 4-digit hex
escape, and every other character stands for itself. -/
def escapeChar (c : Char) : List Char :=
  if c = '"' then ['\\', '"']
  else if c = '\\' then ['\\', '\\']
  else if c.toNat = 8 then ['\\', 'b']
  else if c.toNat = 9 then ['\\', 't']
  else if c.toNat = 10 then ['\\', 'n']
  else if c.toNat = 12 then ['\\', 'f']
  else if c.toNat = 13 then ['\\', 'r']
  else if c.toNat < 32 then
    ['\\', 'u', '0', '0', hexDigit (c.toNat / 16), hexDigit (c.toNat % 16)]
  else [c]

/-- Escape every character of a string body in order. -/
def encodeChars : List Char → List Char
  | [] => []
  | c :: rest => escapeChar c ++ encodeChars rest

/-- Models JSON.stringify applied to a string value: a double-quoted,
escaped rendering of the string. -/
def jsonStringifyString (s : String) : String :=
  String.mk ('"' :: (encodeChars s.data ++ ['"']))

/-- Decoder for the escape encoding, producing character codes. The fuel
argument only drives the recursion; one unit is spent per decoded
character. Used solely to prove that the encoding, hence the fingerprint,
is injective. -/
def decodeEsc : Nat → List Char → Option (List Nat)
  | _, [] => some []
  | 0, _ :: _ => none
  | n+1, c :: rest =>
    if c = '\\' then
      match rest with
      | [] => none
      | d :: rest2 =>
        if d = '"' then Option.map (List.cons 34) (decodeEsc n rest2)
        else if d = '\\' then Option.map (List.cons 92) (decodeEsc n rest2)
        else if d = 'b' then Option.map (List.cons 8) (decodeEsc n rest2)
        else if d = 't' then Option.map (List.cons 9) (decodeEsc n rest2)
        else if d = 'n' then Option.map (List.cons 10) (decodeEsc n rest2)
        else if d = 'f' then Option.map (List.cons 12) (decodeEsc n rest2)
        else if d = 'r' then Option.map (List.cons 13) (decodeEsc n rest2)
        else if d = 'u' then
          match rest2 with
          | h1 :: h2 :: h3 :: h4 :: rest3 =>
            (match hexVal h1, hexVal h2, hexVal h3, hexVal h4 with
             | some a, some b, some c2, some d2 =>
               Option.map (List.cons (4096*a + 256*b + 16*c2 + d2)) (decodeEsc n rest3)
             | _, _, _, _ => none)
          | _ => none
        else none
    else Option.map (List.cons c.toNat) (decodeEsc n rest)

/-- Models the configuration fingerprint computed in
Custom_MCP.getRuntimeToolkit: currentConfigHash =
JSON.stringify(mcpServerConfig), the stringified raw configuration text
(the source comment notes it could be replaced with an actual hash). -/
def fingerprint (cfgText : String) : String := jsonStringifyString cfgText

/-- Models the BraveSearch_MCP configuration fingerprint: the literal
braveApiKey prefix followed by the credential value. -/
def braveConfigHash (key : String) : String := "braveApiKey:" ++ key

/-- One entry of the tools-list response: name, description, and the input
schema shape (whether its type field is the object type, and its
properties keys when the properties field is present). -/
structure ToolDef where
  name : String
  description : String
  schemaIsObject : Bool
  properties : Option (List String)
deriving DecidableEq

/-- Models createSchemaModel: accepts exactly an object schema with a
present properties field (every property collapses to an accept-anything
placeholder), and throws (none) otherwise. -/
def createSchemaModel (td : ToolDef) : Option (List String) :=
  if td.schemaIsObject && td.properties.isSome then td.properties else none

/-- Models get_tools composed with MCPTool: one callable tool per
discovered descriptor, failing if any descriptor has a malformed schema.
The model keeps the tool name as the materialized artifact. -/
def materializeTools (tds : List ToolDef) : Option (List String) :=
  tds.mapM (fun td => (createSchemaModel td).map (fun _ => td.name))

/-- Observable OS-level process actions. -/
inductive Ev where
  | spawn (pid : Nat)
  | sigterm (pid : Nat)
  | sigkill (pid : Nat)
deriving DecidableEq

/-- Count of graceful termination signals in an event trace. -/
def sigtermCount (evs : List Ev) : Nat :=
  evs.countP (fun e => match e with | .sigterm _ => true | _ => false)

namespace Core

/-- Launch configuration at the interface type declared for it: command
(required string), argument list, environment overrides. -/
structure Config where
  command : Option String
  args : List String
  env : List (String × String)
deriving DecidableEq

/-- JavaScript falsiness of the string-typed command field: absent or
empty. -/
def optStrFalsy : Option String → Bool
  | none => true
  | some s => s == ""

/-- Override-wins merge of the base process environment with the
configuration environment (object spread of process.env then env). -/
def mergeEnv (base overrides : List (String × String)) : List (String × String) :=
  base.filter (fun p => overrides.all (fun q => q.1 != p.1)) ++ overrides

/-- State of one MCPToolkit instance from core.ts: registry key, client
and transport handles, the raw tools-list response, the materialized tools
(by name), the stored configuration, and the spawned child process. -/
structure CTk where
  processId : String
  clientSome : Bool
  transportSome : Bool
  listedTools : Option (List ToolDef)
  tools : List String
  model_config : Option Config
  procHandle : Option Nat
deriving DecidableEq

/-- Oracle for the environment-dependent outcomes of one initialize run:
the OS pid assigned by spawn, the platform, the exit code the child has
(if any) when the startup grace timer fires, whether client.connect
succeeds, the tools-list response (none models a failed request), and the
exit code the child has when cleanup later checks it. -/
structure CoreEnv where
  pid : Nat
  isWin32 : Bool
  exitAtStartupTimeout : Option Int
  connectOk : Bool
  listResult : Option (List ToolDef)
  exitAtCleanup : Option Int

/-- Outcome of the spawn step. -/
inductive SpawnRes where
  | ok
  | errMissingCommand
  | errStartup
deriving DecidableEq

/-- Models the private spawn method of MCPToolkit in core.ts, lines 87 to
141: reject with the Server command is required error when no command is
configured, before anything is launched; otherwise resolve npx to npx.cmd
on Windows, spawn the child with the merged environment, record it in the
module process registry keyed by processId, create the stdio transport,
and let the startup grace timer decide the outcome: resolve only if the
process has not already exited (exitCode still null), reject otherwise. -/
def spawnProcess (tk : CTk) (reg : List String) (baseEnv : List (String × String))
    (cfg : Config) (env : CoreEnv) :
    CTk × List String × List Ev × SpawnRes :=
  if optStrFalsy cfg.command then (tk, reg, [], .errMissingCommand)
  else
    let _finalCommand : String :=
      if cfg.command == some "npx" && env.isWin32 then "npx.cmd" else cfg.command.getD ""
    let _processEnv := mergeEnv baseEnv cfg.env
    let tk1 : CTk := { tk with procHandle := some env.pid, transportSome := true }
    let reg1 := if tk.processId ∈ reg then reg else tk.processId :: reg
    if env.exitAtStartupTimeout = none then (tk1, reg1, [Ev.spawn env.pid], .ok)
    else (tk1, reg1, [Ev.spawn env.pid], .errStartup)

/-- Models MCPToolkit.cleanup from core.ts, lines 161 to 198: null the
client (and, inside that branch, the transport); delete the process
registry entry, send SIGTERM if the process has not exited, schedule the
2000 ms SIGKILL timer and null the process field; finally null the
transport and the discovered tools and empty the materialized tools. The
exitCode argument is what this.process.exitCode reads at that moment; the
returned flag records whether the kill timer was scheduled. -/
def cleanup (tk : CTk) (reg : List String) (exitCode : Option Int) :
    CTk × List String × List Ev × Bool :=
  let tk1 := if tk.clientSome then { tk with transportSome := false, clientSome := false } else tk
  let step :=
    match tk1.procHandle with
    | some p =>
      let reg2 := reg.erase tk1.processId
      if exitCode = none then
        ({ tk1 with procHandle := none }, reg2, [Ev.sigterm p], true)
      else
        ({ tk1 with procHandle := none }, reg2, ([] : List Ev), false)
    | none => (tk1, reg, ([] : List Ev), false)
  ({ step.1 with transportSome := false, listedTools := none, tools := [] },
    step.2.1, step.2.2.1, step.2.2.2)

/-- Models the body of the SIGKILL setTimeout scheduled by cleanup,
evaluated when the 2000 ms grace window elapses, against the state the
toolkit holds at that time: if this.process is still set and that process
has not exited, send SIGKILL to it. -/
def fireKillTimer (tkAtFire : CTk) (exitAtFire : Option Int) : List Ev :=
  match tkAtFire.procHandle with
  | some p => if exitAtFire = none then [Ev.sigkill p] else []
  | none => []

/-- Failure path of initialize: run cleanup to completion, then propagate
the error (the false flag) with the events accumulated so far. -/
def initFail (tk : CTk) (reg : List String) (ec : Option Int) (evs1 : List Ev) :
    CTk × List String × List Ev × Bool :=
  ((cleanup tk reg ec).1, (cleanup tk reg ec).2.1,
    evs1 ++ (cleanup tk reg ec).2.2.1, false)

/-- Models MCPToolkit.initialize from core.ts, lines 48 to 85: no-op when
tools were already discovered; otherwise create the client, spawn the
server process and build the transport, connect, request the tools list,
and materialize the tools; any failure at any step runs cleanup before the
error propagates (the final Bool is success). -/
def init (tk : CTk) (reg : List String) (baseEnv : List (String × String))
    (env : CoreEnv) : CTk × List String × List Ev × Bool :=
  if tk.listedTools.isSome then (tk, reg, [], true)
  else
    let tk0 := { tk with clientSome := true }
    if !tk0.transportSome && tk0.model_config.isSome then
      match tk0.model_config with
      | some cfg =>
        let s := spawnProcess tk0 reg baseEnv cfg env
        match s.2.2.2 with
        | .ok =>
          if env.connectOk then
            match env.listResult with
            | some tds =>
              match materializeTools tds with
              | some names =>
                ({ s.1 with listedTools := some tds, tools := names },
                  s.2.1, s.2.2.1, true)
              | none =>
                initFail { s.1 with listedTools := some tds } s.2.1 env.exitAtCleanup s.2.2.1
            | none => initFail s.1 s.2.1 env.exitAtCleanup s.2.2.1
          else initFail s.1 s.2.1 env.exitAtCleanup s.2.2.1
        | _ => initFail s.1 s.2.1 env.exitAtCleanup s.2.2.1
      | none => initFail tk0 reg env.exitAtCleanup []
    else initFail tk0 reg env.exitAtCleanup []

/-- Closed resource state of a core toolkit: no client, no transport, no
discovered tool list, no materialized tools, no process handle. -/
def closedTk (tk : CTk) : Prop :=
  tk.clientSome = false ∧ tk.transportSome = false ∧ tk.listedTools = none ∧
  tk.tools = [] ∧ tk.procHandle = none

/-- Sequence of cleanup calls: each call observes the exit code listed for
it and runs on the state the previous call left. -/
def cleanupSeq : CTk → List String → List (Option Int) → CTk × List String × List Ev
  | tk, reg, [] => (tk, reg, [])
  | tk, reg, ec :: rest =>
    ((cleanupSeq (cleanup tk reg ec).1 (cleanup tk reg ec).2.1 rest).1,
     (cleanupSeq (cleanup tk reg ec).1 (cleanup tk reg ec).2.1 rest).2.1,
     (cleanup tk reg ec).2.2.1
       ++ (cleanupSeq (cleanup tk reg ec).1 (cleanup tk reg ec).2.1 rest).2.2)

end Core

namespace Reg

/-- Lookup in an association list (leftmost binding wins). -/
def alookup {α β : Type} [DecidableEq α] : List (α × β) → α → Option β
  | [], _ => none
  | (k, v) :: rest, a => if a = k then some v else alookup rest a

/-- Insert or replace a binding. -/
def aset {α β : Type} [DecidableEq α] : List (α × β) → α → β → List (α × β)
  | [], a, b => [(a, b)]
  | (k, v) :: rest, a, b => if a = k then (a, b) :: rest else (k, v) :: aset rest a b

/-- Remove the binding for a key, if present. -/
def aerase {α β : Type} [DecidableEq α] : List (α × β) → α → List (α × β)
  | [], _ => []
  | (k, v) :: rest, a => if a = k then rest else (k, v) :: aerase rest a

/-- Modify the binding for a key, if present. -/
def amodify {α β : Type} [DecidableEq α] : List (α × β) → α → (β → β) → List (α × β)
  | [], _, _ => []
  | (k, v) :: rest, a, f => if a = k then (k, f v) :: rest else (k, v) :: amodify rest a f

/-- State of one MCPToolkit instance of the registry variant: generated
identity, client and transport handles, the raw tools-list response, the
materialized tools (by name), the stored parsed server configuration, and
the configuration fingerprint stamped on the instance by the node layer. -/
structure RTk where
  tkId : Nat
  clientSome : Bool
  transportSome : Bool
  listedTools : Option (List ToolDef)
  tools : List String
  server_config : JVal
  configHash : Option String

/-- Module-level mutable state of the registry variant: the heap of
toolkit objects by identity, the activeToolkits shutdown set, the
runtimeInstances cache keyed by node id, the fresh-identity counter, the
shuttingDown guard, and an instrumentation log of cleanup invocations
(most recent first). -/
structure MSt where
  heap : List (Nat × RTk)
  active : List Nat
  instances : List (String × Nat)
  nextId : Nat
  shuttingDown : Bool
  cleanupCalls : List Nat

/-- Close the resource fields of a toolkit: transport destroyed and
nulled, client nulled, tools-list response nulled, tools emptied. The
configuration and fingerprint fields remain. -/
def closeRTk (tk : RTk) : RTk :=
  { tk with clientSome := false, transportSome := false, listedTools := none, tools := [] }

/-- Models MCPToolkit.cleanup of the registry variant: the invocation is
logged for the proofs; the body returns immediately when the instance is
not in activeToolkits (cleanup already ran, or the instance was never
registered); otherwise it removes the instance from activeToolkits first,
destroys and nulls the transport, nulls the client, nulls the tools-list
response and empties the tools. -/
def cleanupTk (σ : MSt) (i : Nat) : MSt :=
  if i ∈ σ.active then
    { σ with
      cleanupCalls := i :: σ.cleanupCalls,
      active := σ.active.erase i,
      heap := amodify σ.heap i closeRTk }
  else { σ with cleanupCalls := i :: σ.cleanupCalls }

/-- Environment oracle for one initialize run of the registry variant:
whether client.connect succeeds, and the tools-list response (none models
a failed request). -/
structure RegEnv where
  connectOk : Bool
  listResult : Option (List ToolDef)

/-- Models setupTransport of the registry variant: read command, args and
env from the stored configuration; throw, after nulling the transport,
when the command property is falsy; otherwise create the stdio transport
with the merged environment. -/
def setupTransport (tk : RTk) : RTk × Bool :=
  if jfalsy (getField tk.server_config "command") then
    ({ tk with transportSome := false }, false)
  else ({ tk with transportSome := true }, true)

/-- Models MCPToolkit.initialize of the registry variant, lines 35 to 73
of its source: no-op when client and tools-list are both already present;
otherwise create the client, set up the transport, connect, request the
tools list and materialize the tools; on failure at any step, run cleanup
(subject to its activeToolkits guard) and propagate the error (false). -/
def initTk (σ : MSt) (i : Nat) (env : RegEnv) : MSt × Bool :=
  match alookup σ.heap i with
  | none => (σ, false)
  | some tk =>
    if tk.clientSome && tk.listedTools.isSome then (σ, true)
    else
      let tk0 := { tk with clientSome := true }
      let st := setupTransport tk0
      if st.2 then
        if env.connectOk then
          match env.listResult with
          | some tds =>
            match materializeTools tds with
            | some names =>
              let ready := { st.1 with listedTools := some tds, tools := names }
              ({ σ with heap := amodify σ.heap i (fun _ => ready) }, true)
            | none =>
              let listed := { st.1 with listedTools := some tds }
              (cleanupTk { σ with heap := amodify σ.heap i (fun _ => listed) } i, false)
          | none =>
            (cleanupTk { σ with heap := amodify σ.heap i (fun _ => st.1) } i, false)
        else
          (cleanupTk { σ with heap := amodify σ.heap i (fun _ => st.1) } i, false)
      else
        (cleanupTk { σ with heap := amodify σ.heap i (fun _ => st.1) } i, false)

/-- Models Custom_MCP.createAndInitToolkit: require the configuration
text, parse it (strict JSON, then the object-literal evaluation fallback),
require a truthy command property, construct a fresh MCPToolkit (consuming
one generated identity) holding the parsed configuration, and initialize
it; initialize failures propagate after the cleanup attempt inside
initialize. The subsequent tools check of the source never throws, because
an array is always truthy. Returns none on failure, with no cache entry
made. -/
def createAndInitToolkit (σ : MSt) (cfgText : String) (env : RegEnv) :
    MSt × Option Nat :=
  if cfgText = "" then (σ, none)
  else
    match parseServerParams cfgText with
    | none => (σ, none)
    | some v =>
      if jfalsy (getField v "command") then (σ, none)
      else
        let i := σ.nextId
        let σ1 : MSt := { σ with
          heap := aset σ.heap i
            { tkId := i, clientSome := false, transportSome := false,
              listedTools := none, tools := [], server_config := v, configHash := none },
          nextId := σ.nextId + 1 }
        let r := initTk σ1 i env
        if r.2 then (r.1, some i) else (r.1, none)

/-- Creation tail of getRuntimeToolkit: create and initialize a new
toolkit, stamp the current fingerprint on it, store it in the
runtimeInstances cache for the node, and add it to the activeToolkits
shutdown set. -/
def acquireCreate (σ : MSt) (nodeId : String) (cfgText : String) (h : String)
    (env : RegEnv) : MSt × Option Nat :=
  let r := createAndInitToolkit σ cfgText env
  match r.2 with
  | none => (r.1, none)
  | some j =>
    ({ r.1 with
        heap := amodify r.1.heap j (fun tk => { tk with configHash := some h }),
        instances := aset r.1.instances nodeId j,
        active := if j ∈ r.1.active then r.1.active else j :: r.1.active },
      some j)

/-- Fingerprint of the cached instance for a cache check: the configHash
field of the toolkit the cache entry points at. -/
def cachedHash (σ : MSt) (i : Nat) : Option String :=
  match alookup σ.heap i with
  | some tk => tk.configHash
  | none => none

/-- Models Custom_MCP.getRuntimeToolkit, lines 161 to 224, the registry
acquire operation: compute the fingerprint of the raw configuration text
and look up the module cache by node id; on a hit with matching
fingerprint return the cached instance unchanged (cache HIT); on a
fingerprint mismatch delete the cache entry first, run cleanup on the
superseded instance, and fall through; then create and initialize a fresh
toolkit, stamp the fingerprint, cache it and register it for shutdown.
Creation failures propagate with no entry left behind. -/
def getRuntimeToolkit (σ : MSt) (nodeId : String) (cfgText : String)
    (env : RegEnv) : MSt × Option Nat :=
  let h := fingerprint cfgText
  match alookup σ.instances nodeId with
  | some i =>
    if cachedHash σ i = some h then (σ, some i)
    else
      acquireCreate (cleanupTk { σ with instances := aerase σ.instances nodeId } i)
        nodeId cfgText h env
  | none => acquireCreate σ nodeId cfgText h env

/-- Fold cleanup over a list of toolkit identities. -/
def cleanAll (σ : MSt) : List Nat → MSt
  | [] => σ
  | i :: rest => cleanAll (cleanupTk σ i) rest

/-- Models shutdownGracefully of the registry variant, lines 217 to 247:
return at once when a shutdown already ran (the shuttingDown guard);
otherwise set the guard, snapshot the activeToolkits set, and run cleanup
on every snapshotted toolkit, waiting for all the cleanups to settle
(modelled by sequential completion of each). -/
def shutdownGracefully (σ : MSt) : MSt :=
  if σ.shuttingDown then σ
  else cleanAll { σ with shuttingDown := true } σ.active

/-- Delivery of a sequence of termination signals, each of which invokes
the shutdown handler. -/
def runSignals (σ : MSt) : List String → MSt
  | [] => σ
  | _ :: rest => runSignals (shutdownGracefully σ) rest

end Reg

/-- Test whether the pattern is a prefix of the list. -/
def listStartsWith : List Char → List Char → Bool
  | _, [] => true
  | [], _ :: _ => false
  | a :: as, b :: bs => a = b && listStartsWith as bs

/-- Test whether the pattern occurs contiguously anywhere in the list. -/
def listHasSub : List Char → List Char → Bool
  | [], pat => listStartsWith [] pat
  | h :: t, pat => listStartsWith (h :: t) pat || listHasSub t pat

/-- Models the JavaScript String.prototype.includes substring test. -/
def jsStrIncludes (s pat : String) : Bool := listHasSub s.data pat.data

/-- JavaScript length property of a structured value: defined for arrays
and strings, undefined (none) otherwise. -/
def jsLength : JVal → Option Nat
  | .arr xs => some xs.length
  | .str s => some s.data.length
  | _ => none

/-- JavaScript call v.includes(name) for a string argument: array
membership under strict equality (only a string element can equal the
string probe), substring test on strings, and a TypeError (none) on every
other receiver. -/
def jsIncludes : JVal → String → Option Bool
  | .arr xs, name => some (xs.any (fun x => match x with | .str t => t == name | _ => false))
  | .str s, name => some (jsStrIncludes s name)
  | _, _ => none

/-- Models allTools.filter(tool to mcpActions.includes(tool.name)): the
predicate call throws a TypeError (error) on the first element when the
receiver supports no includes method; an empty tool list never calls the
predicate. Tools are represented by their names. -/
def filterToolsJS (tools : List String) (sel : JVal) : Except Unit (List String) :=
  match tools with
  | [] => .ok []
  | t :: rest =>
    match jsIncludes sel t with
    | none => .error ()
    | some b =>
      match filterToolsJS rest sel with
      | .ok l => .ok (if b then t :: l else l)
      | .error e => .error e

/-- Models the mcpActions resolution inside init: the variable starts as
the empty array; when the raw input is truthy it is JSON.parsed if it is a
string (a parse failure is caught and leaves the empty array) and used as
is otherwise. -/
def resolveMcpActions (input : Option JVal) : JVal :=
  match input with
  | none => .arr []
  | some v =>
    if truthy v then
      match v with
      | .str s =>
        (match jsonParse s with
         | some parsed => parsed
         | none => .arr [])
      | other => other
    else .arr []

/-- Models the tool-selection logic of Custom_MCP.init (first variant,
lines 119 to 155) and BraveSearch_MCP.init (lines 100 to 135): resolve
useAllActions (defaulting to true) and return every tool when it is set;
otherwise resolve the selected actions, return no tools when the resolved
value has length 0, and otherwise filter the tools through the includes
call of the resolved value. -/
def initSelectTools (useAllInput : Option Bool) (input : Option JVal)
    (allTools : List String) : Except Unit (List String) :=
  let useAllActions := useAllInput.getD true
  if useAllActions then .ok allTools
  else
    let mcpActions := resolveMcpActions input
    if jsLength mcpActions = some 0 then .ok []
    else filterToolsJS allTools mcpActions

/-- Empty module state for concrete registry runs. -/
def c1σ0 : Reg.MSt :=
  { heap := [], active := [], instances := [], nextId := 0,
    shuttingDown := false, cleanupCalls := [] }

/-- Concrete configuration text A for the registry witness. -/
def c1cfgA : String := "\x7b\"command\":\"a\"\x7d"

/-- Concrete configuration text B for the registry witness. -/
def c1cfgB : String := "\x7b\"command\":\"b\"\x7d"

/-- Concrete successful initialize environment for the registry witness. -/
def c1env : Reg.RegEnv :=
  { connectOk := true
    listResult := some [{ name := "t1", description := "d", schemaIsObject := true, properties := some ["p"] }] }

/-- Module state after the first concrete acquire. -/
def c1σ1 : Reg.MSt := (Reg.getRuntimeToolkit c1σ0 "node1" c1cfgA c1env).1

/-- Module state after the second concrete acquire with a changed
configuration. -/
def c1σ2 : Reg.MSt := (Reg.getRuntimeToolkit c1σ1 "node1" c1cfgB c1env).1

/-- Parsed server configuration for the registry failing-input run. -/
def c2cfg : JVal := .obj [("command", .str "run")]

/-- Freshly constructed, never-registered toolkit for the failing-input
run. -/
def c2tk : Reg.RTk :=
  { tkId := 5, clientSome := false, transportSome := false, listedTools := none,
    tools := [], server_config := c2cfg, configHash := none }

/-- Module state holding the fresh toolkit, which is not in
activeToolkits (as in every creation flow, where registration happens only
after initialize succeeds). -/
def c2σ : Reg.MSt :=
  { heap := [(5, c2tk)], active := [], instances := [], nextId := 6,
    shuttingDown := false, cleanupCalls := [] }

/-- Environment in which client.connect fails. -/
def c2env : Reg.RegEnv := { connectOk := false, listResult := none }

/-- Core toolkit input for the witness run of the initialization
atomicity theorem. -/
def c2ctk : Core.CTk :=
  { processId := "p1", clientSome := false, transportSome := false,
    listedTools := none, tools := [],
    model_config := some { command := some "run", args := [], env := [] },
    procHandle := none }

/-- Environment in which the core connect step fails after a successful
spawn. -/
def c2cenv : Core.CoreEnv :=
  { pid := 7, isWin32 := false, exitAtStartupTimeout := none, connectOk := false,
    listResult := none, exitAtCleanup := none }

/-- Toolkit holding live resources but absent from activeToolkits. -/
def c3tk : Reg.RTk :=
  { tkId := 9, clientSome := true, transportSome := true, listedTools := some [],
    tools := ["x"], server_config := .null, configHash := none }

/-- Module state for the C3 counterexample: the toolkit exists but is not
registered. -/
def c3σ : Reg.MSt :=
  { heap := [(9, c3tk)], active := [], instances := [], nextId := 10,
    shuttingDown := false, cleanupCalls := [] }

/-- Registered toolkit and state for the C3 witness. -/
def c3tkB : Reg.RTk :=
  { tkId := 3, clientSome := true, transportSome := true, listedTools := some [],
    tools := ["y"], server_config := .null, configHash := none }

/-- Module state with the toolkit registered in activeToolkits. -/
def c3σB : Reg.MSt :=
  { heap := [(3, c3tkB)], active := [3], instances := [], nextId := 4,
    shuttingDown := false, cleanupCalls := [] }

/-- Core toolkit with a live process for the C3 witness. -/
def c3ctk : Core.CTk :=
  { processId := "p3", clientSome := true, transportSome := true,
    listedTools := some [], tools := ["t"], model_config := none,
    procHandle := some 11 }

/-- Core toolkit with client and a running child process, the failing
input for C4. -/
def c4tk : Core.CTk :=
  { processId := "p4", clientSome := true, transportSome := true,
    listedTools := some [], tools := ["t"], model_config := none,
    procHandle := some 7 }

/-- Core toolkit for the C5 witness. -/
def c5tk : Core.CTk :=
  { processId := "p5", clientSome := true, transportSome := false,
    listedTools := none, tools := [], model_config := none, procHandle := none }

/-- Configuration with a command for the C5 witness. -/
def c5cfg : Core.Config := { command := some "run", args := ["x"], env := [] }

/-- Environment where the child is still running at the grace timer. -/
def c5envOk : Core.CoreEnv :=
  { pid := 3, isWin32 := false, exitAtStartupTimeout := none, connectOk := true,
    listResult := none, exitAtCleanup := none }

/-- Environment where the child exited (code 1) before the grace timer. -/
def c5envBad : Core.CoreEnv :=
  { pid := 3, isWin32 := false, exitAtStartupTimeout := some 1, connectOk := true,
    listResult := none, exitAtCleanup := some 1 }

/-- Configuration text A for the C6 counterexample. -/
def c6cfgA : String := "\x7b\"command\":\"npx\"\x7d"

/-- The same configuration with one extra space: semantically identical,
textually different. -/
def c6cfgB : String := "\x7b \"command\":\"npx\"\x7d"

/-- Configuration text that is not valid JSON (trailing comma) but is a
valid JavaScript array literal. -/
def c7bad : String := "[1,2,]"

/-- Configuration without a command field for the C8 witness. -/
def c8cfgMissing : Core.Config := { command := none, args := [], env := [] }

/-- Registry toolkit whose configuration has an empty command string. -/
def c8tkEmpty : Reg.RTk :=
  { tkId := 8, clientSome := false, transportSome := false, listedTools := none,
    tools := [], server_config := .obj [("command", .str "")], configHash := none }

/-- Registry toolkit whose configuration lacks the command property. -/
def c8tkNone : Reg.RTk :=
  { tkId := 8, clientSome := false, transportSome := false, listedTools := none,
    tools := [], server_config := .obj [("args", .arr [])], configHash := none }

/-- Module state with two registered toolkits for the C9 witness. -/
def c9σ : Reg.MSt :=
  { heap := [(1, c3tkB), (2, { c3tkB with tkId := 2 })], active := [1, 2],
    instances := [("n1", 1), ("n2", 2)], nextId := 3,
    shuttingDown := false, cleanupCalls := [] }

example : jsonParse "null" = some .null := rfl

example : jsonParse "[1, 2]" = some (.arr [.num 1, .num 2]) := rfl

example : jsonParse " \"ab\" " = some (.str "ab") := rfl

example : jsonParse "\x7b\"a\": true\x7d" = some (.obj [("a", .bool true)]) := rfl

example : jsonParse "[1,2,]" = none := rfl

example : relaxedEval "[1,2,]" = some (.arr [.num 1, .num 2]) := rfl

example : jsonParse "\x7ba: 1\x7d" = none := rfl

example : relaxedEval "\x7ba: 1\x7d" = some (.obj [("a", .num 1)]) := rfl

example : jsonParse "-12" = some (.num (-12)) := rfl

example : jsonParse "noise" = none := rfl

theorem hexVal_hexDigit : ∀ n, n < 16 → hexVal (hexDigit n) = some n := by decide

theorem decodeEsc_u (n : Nat) (a b : Char) (va vb : Nat) (rest : List Char)
    (ha : hexVal a = some va) (hb : hexVal b = some vb) :
    decodeEsc (n+1) ('\\' :: 'u' :: '0' :: '0' :: a :: b :: rest)
      = Option.map (List.cons (16*va + vb)) (decodeEsc n rest) := by
  show (match hexVal '0', hexVal '0', hexVal a, hexVal b with
        | some x, some y, some z, some w =>
          Option.map (List.cons (4096*x + 256*y + 16*z + w)) (decodeEsc n rest)
        | _, _, _, _ => none) = _
  rw [show hexVal '0' = some 0 from rfl, ha, hb]
  norm_num

theorem decodeEsc_escapeChar (n : Nat) (c : Char) (rest : List Char) :
    decodeEsc (n+1) (escapeChar c ++ rest)
      = Option.map (List.cons c.toNat) (decodeEsc n rest) := by
  by_cases h1 : c = '"'
  · subst h1; rfl
  by_cases h2 : c = '\\'
  · subst h2; rfl
  by_cases h3 : c.toNat = 8
  · rw [show escapeChar c = ['\\', 'b'] by simp [escapeChar, h1, h2, h3], h3]; rfl
  by_cases h4 : c.toNat = 9
  · rw [show escapeChar c = ['\\', 't'] by simp [escapeChar, h1, h2, h3, h4], h4]; rfl
  by_cases h5 : c.toNat = 10
  · rw [show escapeChar c = ['\\', 'n'] by simp [escapeChar, h1, h2, h3, h4, h5], h5]; rfl
  by_cases h6 : c.toNat = 12
  · rw [show escapeChar c = ['\\', 'f'] by simp [escapeChar, h1, h2, h3, h4, h5, h6], h6]; rfl
  by_cases h7 : c.toNat = 13
  · rw [show escapeChar c = ['\\', 'r'] by simp [escapeChar, h1, h2, h3, h4, h5, h6, h7], h7]; rfl
  by_cases h8 : c.toNat < 32
  · rw [show escapeChar c
        = ['\\', 'u', '0', '0', hexDigit (c.toNat / 16), hexDigit (c.toNat % 16)] by
          simp [escapeChar, h1, h2, h3, h4, h5, h6, h7, h8]]
    rw [show ['\\', 'u', '0', '0', hexDigit (c.toNat / 16), hexDigit (c.toNat % 16)] ++ rest
        = '\\' :: 'u' :: '0' :: '0' :: hexDigit (c.toNat / 16) :: hexDigit (c.toNat % 16) :: rest
        from rfl]
    rw [decodeEsc_u n (hexDigit (c.toNat / 16)) (hexDigit (c.toNat % 16))
        (c.toNat / 16) (c.toNat % 16) rest
        (hexVal_hexDigit _ (by omega))
        (hexVal_hexDigit _ (Nat.mod_lt _ (by norm_num)))]
    rw [Nat.div_add_mod]
  · rw [show escapeChar c = [c] by simp [escapeChar, h1, h2, h3, h4, h5, h6, h7, h8]]
    simp only [List.cons_append, List.nil_append]
    rw [decodeEsc.eq_def]
    simp [h2]

theorem decodeEsc_encodeChars (l : List Char) (n : Nat) (rest : List Char) :
    decodeEsc (l.length + n) (encodeChars l ++ rest)
      = Option.map (fun ds => l.map Char.toNat ++ ds) (decodeEsc n rest) := by
  induction l generalizing rest with
  | nil =>
    simp only [encodeChars, List.length_nil, Nat.zero_add, List.nil_append, List.map_nil]
    cases decodeEsc n rest <;> simp
  | cons c cs ih =>
    rw [show encodeChars (c :: cs) = escapeChar c ++ encodeChars cs from rfl,
        List.append_assoc,
        show (c :: cs).length + n = (cs.length + n) + 1 by simp [List.length_cons]; omega,
        decodeEsc_escapeChar, ih]
    cases decodeEsc n rest <;> simp

theorem decodeEsc_nil (n : Nat) : decodeEsc n [] = some [] := by
  cases n <;> rfl

theorem decodeEsc_quote (n : Nat) : decodeEsc (n+1) ['"'] = some [34] := by
  rw [decodeEsc.eq_def]; simp [decodeEsc_nil]

theorem charToNat_inj {a b : Char} (h : a.toNat = b.toNat) : a = b :=
  Char.ext (UInt32.ext h)

theorem jsonStringifyString_inj (s t : String)
    (h : jsonStringifyString s = jsonStringifyString t) : s = t := by
  have hd := congrArg String.data h
  simp only [jsonStringifyString] at hd
  have h2 : encodeChars s.data ++ ['"'] = encodeChars t.data ++ ['"'] := by
    injection hd with _ h2
  have e1 : decodeEsc (s.data.length + (t.data.length + 1)) (encodeChars s.data ++ ['"'])
      = some (s.data.map Char.toNat ++ [34]) := by
    rw [decodeEsc_encodeChars, decodeEsc_quote]; rfl
  have e2 : decodeEsc (t.data.length + (s.data.length + 1)) (encodeChars t.data ++ ['"'])
      = some (t.data.map Char.toNat ++ [34]) := by
    rw [decodeEsc_encodeChars, decodeEsc_quote]; rfl
  rw [h2, show s.data.length + (t.data.length + 1) = t.data.length + (s.data.length + 1)
      by omega, e2] at e1
  have e3 : t.data.map Char.toNat = s.data.map Char.toNat :=
    List.append_cancel_right (Option.some.inj e1)
  have e4 : t.data = s.data :=
    List.map_injective_iff.mpr (fun a b hab => charToNat_inj hab) e3
  cases s; cases t; simp_all

theorem fingerprint_inj (s t : String) : fingerprint s = fingerprint t ↔ s = t :=
  ⟨jsonStringifyString_inj s t, fun e => by rw [e]⟩

theorem braveConfigHash_inj (k1 k2 : String) :
    braveConfigHash k1 = braveConfigHash k2 ↔ k1 = k2 := by
  constructor
  · intro h
    have hd := congrArg String.data h
    simp only [braveConfigHash, String.data_append] at hd
    have := List.append_cancel_left hd
    cases k1; cases k2; simp_all
  · intro e; rw [e]

namespace Core

theorem cleanup_closed (tk : CTk) (reg : List String) (ec : Option Int) :
    closedTk (cleanup tk reg ec).1 := by
  unfold cleanup closedTk
  cases h : (if tk.clientSome then { tk with transportSome := false, clientSome := false } else tk).procHandle <;>
    split_ifs at * <;> simp_all [cleanup]

theorem cleanup_reg_eq (tk : CTk) (reg : List String) (ec : Option Int) :
    (cleanup tk reg ec).2.1
      = if tk.procHandle.isSome then reg.erase tk.processId else reg := by
  unfold cleanup
  by_cases hc : tk.clientSome <;> cases hp : tk.procHandle <;>
    simp [hc, hp] <;> split_ifs <;> rfl

theorem cleanup_reg_notmem (tk : CTk) (reg : List String) (ec : Option Int)
    (h : tk.processId ∉ reg) : tk.processId ∉ (cleanup tk reg ec).2.1 := by
  rw [cleanup_reg_eq]
  split_ifs
  · exact fun hm => h (List.mem_of_mem_erase hm)
  · exact h

theorem cleanup_sigterm_le_one (tk : CTk) (reg : List String) (ec : Option Int) :
    sigtermCount (cleanup tk reg ec).2.2.1 ≤ 1 := by
  unfold cleanup
  by_cases hc : tk.clientSome <;> cases hp : tk.procHandle <;>
    simp [hc, hp, sigtermCount] <;> split_ifs <;> simp [sigtermCount]

theorem cleanup_of_closed (tk : CTk) (reg : List String) (ec : Option Int)
    (h : closedTk tk) : cleanup tk reg ec = (tk, reg, [], false) := by
  obtain ⟨h1, h2, h3, h4, h5⟩ := h
  cases tk
  simp_all [cleanup]

theorem cleanupSeq_of_closed (ecs : List (Option Int)) (tk : CTk) (reg : List String)
    (h : closedTk tk) : cleanupSeq tk reg ecs = (tk, reg, []) := by
  induction ecs generalizing tk reg with
  | nil => rfl
  | cons ec rest ih =>
    unfold cleanupSeq
    rw [cleanup_of_closed tk reg ec h]
    simp [ih tk reg h]

theorem cleanupSeq_sigterm_le_one (tk : CTk) (reg : List String)
    (ec : Option Int) (ecs : List (Option Int)) :
    sigtermCount (cleanupSeq tk reg (ec :: ecs)).2.2 ≤ 1 := by
  unfold cleanupSeq
  rw [cleanupSeq_of_closed ecs _ _ (cleanup_closed tk reg ec)]
  simpa using cleanup_sigterm_le_one tk reg ec

theorem spawnProcess_processId (tk : CTk) (reg : List String)
    (baseEnv : List (String × String)) (cfg : Config) (env : CoreEnv) :
    (spawnProcess tk reg baseEnv cfg env).1.processId = tk.processId := by
  unfold spawnProcess
  split_ifs <;> rfl

theorem initFail_closed (tk : CTk) (reg : List String) (ec : Option Int) (evs : List Ev) :
    closedTk (initFail tk reg ec evs).1 := cleanup_closed tk reg ec

theorem initFail_flag (tk : CTk) (reg : List String) (ec : Option Int) (evs : List Ev) :
    (initFail tk reg ec evs).2.2.2 = false := rfl

theorem initFail_reg_notmem (tk : CTk) (reg : List String) (ec : Option Int)
    (evs : List Ev) (h : tk.processId ∉ reg) :
    tk.processId ∉ (initFail tk reg ec evs).2.1 := cleanup_reg_notmem tk reg ec h

theorem spawnProcess_eq_of_falsy (tk : CTk) (reg : List String)
    (baseEnv : List (String × String)) (cfg : Config) (env : CoreEnv)
    (h : optStrFalsy cfg.command = true) :
    spawnProcess tk reg baseEnv cfg env = (tk, reg, [], .errMissingCommand) := by
  unfold spawnProcess
  simp [h]

theorem spawnProcess_eq_of_cmd (tk : CTk) (reg : List String)
    (baseEnv : List (String × String)) (cfg : Config) (env : CoreEnv)
    (h : optStrFalsy cfg.command = false) :
    spawnProcess tk reg baseEnv cfg env
      = ({ tk with procHandle := some env.pid, transportSome := true },
         (if tk.processId ∈ reg then reg else tk.processId :: reg),
         [Ev.spawn env.pid],
         if env.exitAtStartupTimeout = none then .ok else .errStartup) := by
  unfold spawnProcess
  simp only [h, Bool.false_eq_true, if_false]
  split_ifs <;> rfl

theorem initFail_reg_cons (tk1 : CTk) (reg : List String) (ec : Option Int)
    (evs : List Ev) (h : tk1.procHandle.isSome) :
    (initFail tk1 (tk1.processId :: reg) ec evs).2.1 = reg := by
  show (cleanup tk1 (tk1.processId :: reg) ec).2.1 = reg
  rw [cleanup_reg_eq]
  simp [h]

theorem init_fail_state (tk : CTk) (reg : List String)
    (baseEnv : List (String × String)) (env : CoreEnv)
    (hreg : tk.processId ∉ reg) :
    (init tk reg baseEnv env).2.2.2 = false →
    closedTk (init tk reg baseEnv env).1
      ∧ tk.processId ∉ (init tk reg baseEnv env).2.1 := by
  intro hfail
  unfold init at hfail ⊢
  by_cases hL : tk.listedTools.isSome
  · simp [hL] at hfail
  · by_cases hTS : tk.transportSome
    · simp only [hL, hTS, Bool.not_true, Bool.false_and, if_false, Bool.false_eq_true] at hfail ⊢
      exact ⟨initFail_closed _ _ _ _, initFail_reg_notmem _ _ _ _ hreg⟩
    · cases hmc : tk.model_config with
      | none =>
        simp only [hL, hTS, hmc, Option.isSome_none, Bool.and_false, if_false,
          Bool.false_eq_true] at hfail ⊢
        exact ⟨initFail_closed _ _ _ _, initFail_reg_notmem _ _ _ _ hreg⟩
      | some cfg =>
        simp only [hL, hTS, hmc, Option.isSome_some, Bool.not_false, Bool.and_true,
          if_true, Bool.false_eq_true, if_false] at hfail ⊢
        by_cases hcmd : optStrFalsy cfg.command
        · rw [spawnProcess_eq_of_falsy _ _ _ _ _ hcmd] at hfail ⊢
          exact ⟨initFail_closed _ _ _ _, initFail_reg_notmem _ _ _ _ hreg⟩
        · rw [spawnProcess_eq_of_cmd _ _ _ _ _ (by simpa using hcmd)] at hfail ⊢
          simp only [if_neg hreg] at hfail ⊢
          by_cases hexit : env.exitAtStartupTimeout = none
          · rw [if_pos hexit] at hfail ⊢
            by_cases hco : env.connectOk = true
            · rw [if_pos hco] at hfail ⊢
              cases hlr : env.listResult with
              | none =>
                simp only [hlr] at hfail ⊢
                refine ⟨initFail_closed _ _ _ _, ?_⟩
                rw [initFail_reg_cons _ _ _ _ (by simp)]
                exact hreg
              | some tds =>
                simp only [hlr] at hfail ⊢
                cases hmat : materializeTools tds with
                | none =>
                  simp only [hmat] at hfail ⊢
                  refine ⟨initFail_closed _ _ _ _, ?_⟩
                  rw [initFail_reg_cons _ _ _ _ (by simp)]
                  exact hreg
                | some names =>
                  simp only [hmat] at hfail
                  exact absurd hfail (by simp)
            · rw [if_neg hco] at hfail ⊢
              refine ⟨initFail_closed _ _ _ _, ?_⟩
              rw [initFail_reg_cons _ _ _ _ (by simp)]
              exact hreg
          · rw [if_neg hexit] at hfail ⊢
            refine ⟨initFail_closed _ _ _ _, ?_⟩
            rw [initFail_reg_cons _ _ _ _ (by simp)]
            exact hreg

end Core

namespace Reg

theorem alookup_aset_self {α β : Type} [DecidableEq α] (l : List (α × β)) (a : α) (b : β) :
    alookup (aset l a b) a = some b := by
  induction l with
  | nil => simp [aset, alookup]
  | cons p rest ih =>
    obtain ⟨k, v⟩ := p
    by_cases h : a = k <;> simp [aset, alookup, h, ih]

theorem alookup_aset_ne {α β : Type} [DecidableEq α] (l : List (α × β)) (a a2 : α) (b : β)
    (h : a2 ≠ a) : alookup (aset l a b) a2 = alookup l a2 := by
  induction l with
  | nil => simp [aset, alookup, h]
  | cons p rest ih =>
    obtain ⟨k, v⟩ := p
    by_cases hk : a = k
    · subst hk
      simp [aset, alookup, h, ih]
    · by_cases hk2 : a2 = k <;> simp [aset, alookup, hk, hk2, ih]

theorem alookup_amodify_self {α β : Type} [DecidableEq α] (l : List (α × β)) (a : α)
    (f : β → β) : alookup (amodify l a f) a = (alookup l a).map f := by
  induction l with
  | nil => simp [amodify, alookup]
  | cons p rest ih =>
    obtain ⟨k, v⟩ := p
    by_cases h : a = k <;> simp [amodify, alookup, h, ih]

theorem alookup_amodify_ne {α β : Type} [DecidableEq α] (l : List (α × β)) (a a2 : α)
    (f : β → β) (h : a2 ≠ a) : alookup (amodify l a f) a2 = alookup l a2 := by
  induction l with
  | nil => simp [amodify, alookup]
  | cons p rest ih =>
    obtain ⟨k, v⟩ := p
    by_cases hk : a = k
    · subst hk
      simp [amodify, alookup, h, ih]
    · by_cases hk2 : a2 = k <;> simp [amodify, alookup, hk, hk2, ih]

theorem alookup_aerase_ne {α β : Type} [DecidableEq α] (l : List (α × β)) (a a2 : α)
    (h : a2 ≠ a) : alookup (aerase l a) a2 = alookup l a2 := by
  induction l with
  | nil => simp [aerase, alookup]
  | cons p rest ih =>
    obtain ⟨k, v⟩ := p
    by_cases hk : a = k
    · subst hk
      simp [aerase, alookup, h, ih]
    · by_cases hk2 : a2 = k <;> simp [aerase, alookup, hk, hk2, ih]

theorem cleanupTk_cleanupCalls (σ : MSt) (i : Nat) :
    (cleanupTk σ i).cleanupCalls = i :: σ.cleanupCalls := by
  unfold cleanupTk
  split_ifs <;> rfl

theorem cleanupTk_instances (σ : MSt) (i : Nat) :
    (cleanupTk σ i).instances = σ.instances := by
  unfold cleanupTk
  split_ifs <;> rfl

theorem cleanupTk_nextId (σ : MSt) (i : Nat) :
    (cleanupTk σ i).nextId = σ.nextId := by
  unfold cleanupTk
  split_ifs <;> rfl

theorem cleanupTk_shuttingDown (σ : MSt) (i : Nat) :
    (cleanupTk σ i).shuttingDown = σ.shuttingDown := by
  unfold cleanupTk
  split_ifs <;> rfl

theorem cleanupTk_active (σ : MSt) (i : Nat) :
    (cleanupTk σ i).active = σ.active.erase i := by
  unfold cleanupTk
  split_ifs with h
  · rfl
  · simp [List.erase_of_not_mem h]

theorem cleanupTk_heap_ne (σ : MSt) (i j : Nat) (h : j ≠ i) :
    alookup (cleanupTk σ i).heap j = alookup σ.heap j := by
  unfold cleanupTk
  split_ifs <;> simp [alookup_amodify_ne _ _ _ _ h]

theorem cleanupTk_heap_self (σ : MSt) (i : Nat) (h : i ∈ σ.active) :
    alookup (cleanupTk σ i).heap i = (alookup σ.heap i).map closeRTk := by
  unfold cleanupTk
  split_ifs
  simp [alookup_amodify_self]

theorem cleanupTk_of_not_active (σ : MSt) (i : Nat) (h : i ∉ σ.active) :
    cleanupTk σ i = { σ with cleanupCalls := i :: σ.cleanupCalls } := by
  unfold cleanupTk
  split_ifs
  rfl

theorem initTk_instances (σ : MSt) (i : Nat) (env : RegEnv) :
    (initTk σ i env).1.instances = σ.instances := by
  unfold initTk
  repeat' split
  all_goals try simp only [cleanupTk_instances]
  all_goals try split_ifs
  all_goals simp [cleanupTk_instances]

theorem initTk_nextId (σ : MSt) (i : Nat) (env : RegEnv) :
    (initTk σ i env).1.nextId = σ.nextId := by
  unfold initTk
  repeat' split
  all_goals try simp only [cleanupTk_nextId]
  all_goals try split_ifs
  all_goals simp [cleanupTk_nextId]

theorem initTk_shuttingDown (σ : MSt) (i : Nat) (env : RegEnv) :
    (initTk σ i env).1.shuttingDown = σ.shuttingDown := by
  unfold initTk
  repeat' split
  all_goals try simp only [cleanupTk_shuttingDown]
  all_goals try split_ifs
  all_goals simp [cleanupTk_shuttingDown]

theorem initTk_true_state (σ : MSt) (i : Nat) (env : RegEnv) :
    (initTk σ i env).2 = true →
    (initTk σ i env).1.active = σ.active
      ∧ (initTk σ i env).1.cleanupCalls = σ.cleanupCalls := by
  unfold initTk
  repeat' split
  all_goals try simp only []
  all_goals try split_ifs
  all_goals simp

theorem initTk_heap_ne (σ : MSt) (i j : Nat) (env : RegEnv) (h : j ≠ i) :
    alookup (initTk σ i env).1.heap j = alookup σ.heap j := by
  unfold initTk
  repeat' split
  all_goals try simp only [cleanupTk_heap_ne _ _ _ h]
  all_goals try split_ifs
  all_goals simp [cleanupTk_heap_ne _ _ _ h, alookup_amodify_ne _ _ _ _ h]

theorem initTk_true_heap (σ : MSt) (i : Nat) (env : RegEnv) :
    (initTk σ i env).2 = true →
    (alookup (initTk σ i env).1.heap i).isSome = true := by
  unfold initTk
  repeat' split
  all_goals try simp only []
  all_goals try split_ifs
  all_goals simp_all [alookup_amodify_self]

theorem ca_instances (σ : MSt) (c : String) (e : RegEnv) :
    (createAndInitToolkit σ c e).1.instances = σ.instances := by
  unfold createAndInitToolkit
  repeat' split
  all_goals try simp only [initTk_instances]
  all_goals try split_ifs
  all_goals simp [initTk_instances]

theorem ca_shuttingDown (σ : MSt) (c : String) (e : RegEnv) :
    (createAndInitToolkit σ c e).1.shuttingDown = σ.shuttingDown := by
  unfold createAndInitToolkit
  repeat' split
  all_goals try simp only [initTk_shuttingDown]
  all_goals try split_ifs
  all_goals simp [initTk_shuttingDown]

theorem ca_heap_ne (σ : MSt) (c : String) (e : RegEnv) (j2 : Nat)
    (hne : j2 ≠ σ.nextId) :
    alookup (createAndInitToolkit σ c e).1.heap j2 = alookup σ.heap j2 := by
  unfold createAndInitToolkit
  repeat' split
  all_goals try simp only [initTk_heap_ne _ _ _ _ hne]
  all_goals try split_ifs
  all_goals simp [initTk_heap_ne _ _ _ _ hne, alookup_aset_ne _ _ _ _ hne]

theorem ca_some_facts (σ : MSt) (c : String) (e : RegEnv) (j : Nat) :
    (createAndInitToolkit σ c e).2 = some j →
      j = σ.nextId
      ∧ (createAndInitToolkit σ c e).1.active = σ.active
      ∧ (createAndInitToolkit σ c e).1.cleanupCalls = σ.cleanupCalls
      ∧ (createAndInitToolkit σ c e).1.nextId = σ.nextId + 1
      ∧ (alookup (createAndInitToolkit σ c e).1.heap j).isSome = true := by
  unfold createAndInitToolkit
  dsimp only
  repeat' split
  all_goals intro h
  all_goals simp at h
  rename_i hflag
  subst h
  refine ⟨rfl, ?_, ?_, ?_, ?_⟩
  · exact (initTk_true_state _ _ _ hflag).1
  · exact (initTk_true_state _ _ _ hflag).2
  · exact initTk_nextId _ _ _
  · exact initTk_true_heap _ _ _ hflag

theorem acquireCreate_some_facts (σ : MSt) (k : String) (c : String) (h : String)
    (e : RegEnv) (j : Nat) :
    (acquireCreate σ k c h e).2 = some j →
      j = σ.nextId
      ∧ alookup (acquireCreate σ k c h e).1.instances k = some j
      ∧ cachedHash (acquireCreate σ k c h e).1 j = some h
      ∧ (acquireCreate σ k c h e).1.cleanupCalls = σ.cleanupCalls
      ∧ (∀ j2, j2 ≠ σ.nextId →
          alookup (acquireCreate σ k c h e).1.heap j2 = alookup σ.heap j2) := by
  unfold acquireCreate
  dsimp only
  cases hc : (createAndInitToolkit σ c e).2 with
  | none => intro hj; simp at hj
  | some j0 =>
    intro hj
    simp only at hj
    have hj2 : j = j0 := (Option.some.inj hj).symm
    subst hj2
    obtain ⟨hid, _hact, hcc, _hnx, hheap⟩ := ca_some_facts σ c e j hc
    obtain ⟨tk, htk⟩ := Option.isSome_iff_exists.mp hheap
    refine ⟨hid, ?_, ?_, ?_, ?_⟩
    · exact alookup_aset_self _ _ _
    · show cachedHash _ j = some h
      unfold cachedHash
      simp [alookup_amodify_self, htk]
    · simpa using hcc
    · intro j2 hne
      have h1 : j2 ≠ j := fun e2 => hne (e2 ▸ hid)
      simp only [alookup_amodify_ne _ _ _ _ h1]
      exact ca_heap_ne σ c e j2 hne

theorem acquire_some_facts (σ : MSt) (k c : String) (e : RegEnv) (σ2 : MSt) (j : Nat) :
    getRuntimeToolkit σ k c e = (σ2, some j) →
      alookup σ2.instances k = some j ∧ cachedHash σ2 j = some (fingerprint c) := by
  unfold getRuntimeToolkit
  dsimp only
  cases hI : alookup σ.instances k with
  | none =>
    intro h
    dsimp only at h
    have h2 : (acquireCreate σ k c (fingerprint c) e).2 = some j := by rw [h]
    have h1 : σ2 = (acquireCreate σ k c (fingerprint c) e).1 := by rw [h]
    obtain ⟨_, hist, hch, _, _⟩ := acquireCreate_some_facts _ _ _ _ _ _ h2
    exact h1 ▸ ⟨hist, hch⟩
  | some i =>
    dsimp only
    by_cases hm : cachedHash σ i = some (fingerprint c)
    · rw [if_pos hm]
      intro h
      injection h with ha hb
      obtain rfl : σ = σ2 := ha
      obtain rfl : j = i := (Option.some.inj hb).symm
      exact ⟨hI, hm⟩
    · rw [if_neg hm]
      intro h
      have h2 : (acquireCreate (cleanupTk { σ with instances := aerase σ.instances k } i)
          k c (fingerprint c) e).2 = some j := by rw [h]
      have h1 : σ2 = (acquireCreate (cleanupTk { σ with instances := aerase σ.instances k } i)
          k c (fingerprint c) e).1 := by rw [h]
      obtain ⟨_, hist, hch, _, _⟩ := acquireCreate_some_facts _ _ _ _ _ _ h2
      exact h1 ▸ ⟨hist, hch⟩

theorem acquire_hit (σ : MSt) (k c : String) (e e2 : RegEnv) (σ2 : MSt) (j : Nat)
    (h : getRuntimeToolkit σ k c e = (σ2, some j)) :
    getRuntimeToolkit σ2 k c e2 = (σ2, some j) := by
  obtain ⟨h1, h2⟩ := acquire_some_facts _ _ _ _ _ _ h
  unfold getRuntimeToolkit
  dsimp only
  rw [h1]
  simp [h2]

theorem acquire_config_change (σ : MSt) (k cA cB : String) (eA eB : RegEnv)
    (σ1 σ2 : MSt) (i j : Nat)
    (hne : fingerprint cA ≠ fingerprint cB)
    (h1 : getRuntimeToolkit σ k cA eA = (σ1, some i))
    (h2 : getRuntimeToolkit σ1 k cB eB = (σ2, some j))
    (hlt : i < σ1.nextId) :
    i ≠ j
      ∧ σ2.cleanupCalls = i :: σ1.cleanupCalls
      ∧ alookup σ2.instances k = some j
      ∧ (i ∈ σ1.active → alookup σ2.heap i = (alookup σ1.heap i).map closeRTk) := by
  obtain ⟨hist1, hch1⟩ := acquire_some_facts _ _ _ _ _ _ h1
  have hm : ¬cachedHash σ1 i = some (fingerprint cB) := by
    rw [hch1]; simpa using hne
  unfold getRuntimeToolkit at h2
  dsimp only at h2
  rw [hist1] at h2
  dsimp only at h2
  rw [if_neg hm] at h2
  have h2' : (acquireCreate (cleanupTk { σ1 with instances := aerase σ1.instances k } i)
      k cB (fingerprint cB) eB).2 = some j := by rw [h2]
  have h2a : σ2 = (acquireCreate (cleanupTk { σ1 with instances := aerase σ1.instances k } i)
      k cB (fingerprint cB) eB).1 := by rw [h2]
  obtain ⟨hjid, hist2, _hch2, hcc2, hheapne⟩ := acquireCreate_some_facts _ _ _ _ _ _ h2'
  have hnx : (cleanupTk { σ1 with instances := aerase σ1.instances k } i).nextId
      = σ1.nextId := cleanupTk_nextId _ _
  have hij : i ≠ j := by
    rw [hjid, hnx]
    exact Nat.ne_of_lt hlt
  refine ⟨hij, ?_, ?_, ?_⟩
  · rw [h2a, hcc2, cleanupTk_cleanupCalls]
  · rw [h2a]
    exact hist2
  · intro hact
    rw [h2a, hheapne i (by rw [hnx]; exact Nat.ne_of_lt hlt),
      cleanupTk_heap_self { σ1 with instances := aerase σ1.instances k } i hact]

theorem cleanAll_shuttingDown (l : List Nat) (σ : MSt) :
    (cleanAll σ l).shuttingDown = σ.shuttingDown := by
  induction l generalizing σ with
  | nil => rfl
  | cons a rest ih => rw [cleanAll, ih, cleanupTk_shuttingDown]

theorem cleanAll_calls_mono (l : List Nat) (σ : MSt) (x : Nat)
    (h : x ∈ σ.cleanupCalls) : x ∈ (cleanAll σ l).cleanupCalls := by
  induction l generalizing σ with
  | nil => exact h
  | cons a rest ih =>
    rw [cleanAll]
    exact ih _ (by rw [cleanupTk_cleanupCalls]; exact List.mem_cons_of_mem _ h)

theorem cleanAll_calls_mem (l : List Nat) (σ : MSt) (i : Nat) (h : i ∈ l) :
    i ∈ (cleanAll σ l).cleanupCalls := by
  induction l generalizing σ with
  | nil => cases h
  | cons a rest ih =>
    rw [cleanAll]
    rcases List.mem_cons.mp h with rfl | hmem
    · exact cleanAll_calls_mono _ _ _ (by rw [cleanupTk_cleanupCalls]; exact List.mem_cons_self _ _)
    · exact ih _ hmem

theorem cleanAll_active (l : List Nat) (σ : MSt) :
    (cleanAll σ l).active = l.foldl List.erase σ.active := by
  induction l generalizing σ with
  | nil => rfl
  | cons a rest ih => rw [cleanAll, ih, cleanupTk_active, List.foldl_cons]

theorem eraseAll_self (l : List Nat) (h : l.Nodup) :
    l.foldl List.erase l = [] := by
  induction l with
  | nil => rfl
  | cons a rest ih =>
    rw [List.foldl_cons, List.erase_cons_head]
    exact ih (List.Nodup.of_cons h)

theorem cleanAll_heap_notin (l : List Nat) (σ : MSt) (i : Nat) (h : i ∉ l) :
    alookup (cleanAll σ l).heap i = alookup σ.heap i := by
  induction l generalizing σ with
  | nil => rfl
  | cons a rest ih =>
    rw [cleanAll, ih _ (fun hm => h (List.mem_cons_of_mem _ hm)),
      cleanupTk_heap_ne _ _ _ (fun he => h (by rw [he]; exact List.mem_cons_self _ _))]

theorem cleanAll_heap_closed (l : List Nat) (σ : MSt) (hnd : l.Nodup)
    (hsub : ∀ x ∈ l, x ∈ σ.active) :
    ∀ i ∈ l, alookup (cleanAll σ l).heap i = (alookup σ.heap i).map closeRTk := by
  induction l generalizing σ with
  | nil => intro i hi; cases hi
  | cons a rest ih =>
    intro i hi
    rw [cleanAll]
    rcases List.mem_cons.mp hi with rfl | hmem
    · have hnot : i ∉ rest := (List.nodup_cons.mp hnd).1
      rw [cleanAll_heap_notin _ _ _ hnot,
        cleanupTk_heap_self _ _ (hsub i (List.mem_cons_self _ _))]
    · have hne : i ≠ a := fun he => (List.nodup_cons.mp hnd).1 (by rw [← he]; exact hmem)
      rw [ih (cleanupTk σ a) (List.nodup_cons.mp hnd).2 ?_ i hmem,
        cleanupTk_heap_ne _ _ _ hne]
      intro x hx
      rw [cleanupTk_active]
      exact (List.mem_erase_of_ne
          (fun he => (List.nodup_cons.mp hnd).1 (by rw [← he]; exact hx))).mpr
        (hsub x (List.mem_cons_of_mem _ hx))

theorem shutdown_of_shutting (σ : MSt) (h : σ.shuttingDown = true) :
    shutdownGracefully σ = σ := by
  simp [shutdownGracefully, h]

theorem shutdown_shutting_true (σ : MSt) :
    (shutdownGracefully σ).shuttingDown = true := by
  unfold shutdownGracefully
  split_ifs with h
  · exact h
  · rw [cleanAll_shuttingDown]

theorem shutdown_idem (σ : MSt) :
    shutdownGracefully (shutdownGracefully σ) = shutdownGracefully σ :=
  shutdown_of_shutting _ (shutdown_shutting_true σ)

theorem runSignals_of_shutting (sigs : List String) (σ : MSt)
    (h : σ.shuttingDown = true) : runSignals σ sigs = σ := by
  induction sigs generalizing σ with
  | nil => rfl
  | cons s rest ih => rw [runSignals, shutdown_of_shutting _ h, ih _ h]

theorem runSignals_eq_shutdown (s : String) (sigs : List String) (σ : MSt) :
    runSignals σ (s :: sigs) = shutdownGracefully σ := by
  rw [runSignals, runSignals_of_shutting _ _ (shutdown_shutting_true σ)]

end Reg

example : initSelectTools (some false) (some (.str "[\"a\",\"c\"]")) ["a", "b", "c"]
    = .ok ["a", "c"] := rfl

example : initSelectTools (some false) none ["a", "b"] = .ok [] := rfl

example : initSelectTools (some false) (some (.str "not json")) ["a"] = .ok [] := rfl

example : initSelectTools (some true) (some (.str "[]")) ["a", "b"] = .ok ["a", "b"] := rfl

example : initSelectTools (some false) (some (.str "\"a\"")) ["a"] = .ok ["a"] := rfl

example : initSelectTools (some false) (some (.str "7")) ["a"] = .error () := rfl

theorem filterToolsJS_arr (tools : List String) (xs : List JVal) :
    filterToolsJS tools (.arr xs)
      = .ok (tools.filter
          (fun t => xs.any (fun x => match x with | .str u => u == t | _ => false))) := by
  induction tools with
  | nil => rfl
  | cons t rest ih =>
    rw [filterToolsJS]
    simp only [jsIncludes, ih]
    simp [List.filter_cons]

theorem filterToolsJS_str (tools : List String) (u : String) :
    filterToolsJS tools (.str u)
      = .ok (tools.filter (fun t => jsStrIncludes u t)) := by
  induction tools with
  | nil => rfl
  | cons t rest ih =>
    rw [filterToolsJS]
    simp only [jsIncludes, ih]
    simp [List.filter_cons]

/-- C1: registry cache correctness. Two consecutive acquires with the same
configuration return the identical toolkit instance with the module state
unchanged (no second creation); an acquire whose configuration fingerprint
differs from the cached one removes the cache entry, runs cleanup on the
superseded toolkit (closing it when it was registered), and returns a
freshly created, distinct instance now cached for the node. -/
theorem c1_registry_cache_correctness :
    (∀ σ k c e e2 σ1 i, Reg.getRuntimeToolkit σ k c e = (σ1, some i) →
      Reg.getRuntimeToolkit σ1 k c e2 = (σ1, some i))
    ∧ (∀ σ k cA cB eA eB σ1 σ2 i j,
        fingerprint cA ≠ fingerprint cB →
        Reg.getRuntimeToolkit σ k cA eA = (σ1, some i) →
        Reg.getRuntimeToolkit σ1 k cB eB = (σ2, some j) →
        i < σ1.nextId →
        i ≠ j ∧ σ2.cleanupCalls = i :: σ1.cleanupCalls
          ∧ Reg.alookup σ2.instances k = some j
          ∧ (i ∈ σ1.active →
              Reg.alookup σ2.heap i = (Reg.alookup σ1.heap i).map Reg.closeRTk)) :=
  ⟨fun σ k c e e2 σ1 i h => Reg.acquire_hit σ k c e e2 σ1 i h,
   fun σ k cA cB eA eB σ1 σ2 i j hne h1 h2 hlt =>
     Reg.acquire_config_change σ k cA cB eA eB σ1 σ2 i j hne h1 h2 hlt⟩

theorem c1_registry_cache_correctness_witness :
    Reg.getRuntimeToolkit c1σ1 "node1" c1cfgA c1env = (c1σ1, some 0)
    ∧ ((0 : Nat) ≠ 1 ∧ c1σ2.cleanupCalls = 0 :: c1σ1.cleanupCalls
        ∧ Reg.alookup c1σ2.instances "node1" = some 1
        ∧ Reg.alookup c1σ2.heap 0 = (Reg.alookup c1σ1.heap 0).map Reg.closeRTk) := by
  have h2 := c1_registry_cache_correctness.2 c1σ0 "node1" c1cfgA c1cfgB c1env c1env c1σ1 c1σ2
    0 1 (by decide) (by rfl) (by rfl) (by decide)
  exact ⟨c1_registry_cache_correctness.1 c1σ0 "node1" c1cfgA c1env c1env c1σ1 0 (by rfl),
    h2.1, h2.2.1, h2.2.2.1, h2.2.2.2 (by decide)⟩

/-- C2: initialization atomicity. For the process-owning variant
(core.ts), every failed initialize leaves the toolkit with no client, no
transport, no discovered tool list, no materialized tools, no process
handle, and no process-registry entry. For the registry variant, however,
the failure-path cleanup call is a no-op for a toolkit that was never
added to activeToolkits (the situation of every first initialize), so a
failed initialize leaves the client and transport fields set: the code
contradicts its own cleanup-partially-initialized-state comment. -/
theorem c2_initialization_atomicity :
    (∀ tk reg baseEnv env, tk.processId ∉ reg →
      (Core.init tk reg baseEnv env).2.2.2 = false →
      Core.closedTk (Core.init tk reg baseEnv env).1
        ∧ tk.processId ∉ (Core.init tk reg baseEnv env).2.1)
    ∧ ((Reg.initTk c2σ 5 c2env).2 = false
        ∧ Reg.alookup (Reg.initTk c2σ 5 c2env).1.heap 5
            = some { c2tk with clientSome := true, transportSome := true }
        ∧ (Reg.initTk c2σ 5 c2env).1.cleanupCalls = [5]) := by
  refine ⟨?_, rfl, rfl, rfl⟩
  intro tk reg baseEnv env hreg hfail
  exact Core.init_fail_state tk reg baseEnv env hreg hfail

theorem c2_initialization_atomicity_witness :
    ("p1" ∉ ([] : List String)
      ∧ (Core.init c2ctk [] [] c2cenv).2.2.2 = false)
    ∧ (Core.closedTk (Core.init c2ctk [] [] c2cenv).1
        ∧ "p1" ∉ (Core.init c2ctk [] [] c2cenv).2.1) := by
  refine ⟨⟨by simp, rfl⟩, ?_⟩
  exact c2_initialization_atomicity.1 c2ctk [] [] c2cenv (by simp) rfl

/-- C3 counterexample: in the registry variant, the first cleanup call on
a toolkit that is not in activeToolkits is a complete no-op on the
toolkit state: after the call the toolkit still holds its client,
transport and tool list, so the claim that the first cleanup call always
leaves the toolkit closed is false. -/
theorem c3_idempotent_cleanup_counterexample :
    Reg.alookup (Reg.cleanupTk c3σ 9).heap 9 = some c3tk
    ∧ c3tk.clientSome = true ∧ c3tk.transportSome = true
    ∧ c3tk.listedTools = some [] ∧ c3tk.tools = ["x"] :=
  ⟨rfl, rfl, rfl, rfl, rfl⟩

/-- C3 amended: idempotent cleanup. For the process-owning variant
(core.ts) unconditionally: one cleanup call reaches the closed state, any
further call is an exact no-op with no events, and any number of calls
sends at most one graceful terminate signal. For the registry variant it
holds for toolkits currently in activeToolkits (with no duplicate
registrations): the first call closes and deregisters the toolkit, and a
second call changes neither heap nor active set; cleanup of an
unregistered toolkit is a no-op on the toolkit state. -/
theorem c3_idempotent_cleanup_amended :
    (∀ tk reg ec,
      Core.closedTk (Core.cleanup tk reg ec).1
      ∧ (∀ reg2 ec2, Core.cleanup (Core.cleanup tk reg ec).1 reg2 ec2
          = ((Core.cleanup tk reg ec).1, reg2, [], false))
      ∧ (∀ ecs, sigtermCount (Core.cleanupSeq tk reg (ec :: ecs)).2.2 ≤ 1))
    ∧ (∀ σ i, i ∈ σ.active → σ.active.Nodup →
        (Reg.cleanupTk σ i).active = σ.active.erase i
        ∧ Reg.alookup (Reg.cleanupTk σ i).heap i
            = (Reg.alookup σ.heap i).map Reg.closeRTk
        ∧ (Reg.cleanupTk (Reg.cleanupTk σ i) i).heap = (Reg.cleanupTk σ i).heap
        ∧ (Reg.cleanupTk (Reg.cleanupTk σ i) i).active = (Reg.cleanupTk σ i).active) := by
  constructor
  · intro tk reg ec
    refine ⟨Core.cleanup_closed tk reg ec, ?_, ?_⟩
    · intro reg2 ec2
      exact Core.cleanup_of_closed _ reg2 ec2 (Core.cleanup_closed tk reg ec)
    · intro ecs
      exact Core.cleanupSeq_sigterm_le_one tk reg ec ecs
  · intro σ i hmem hnd
    have hnot : i ∉ (Reg.cleanupTk σ i).active := by
      rw [Reg.cleanupTk_active]
      exact hnd.not_mem_erase
    have h2 := Reg.cleanupTk_of_not_active _ _ hnot
    refine ⟨Reg.cleanupTk_active σ i, Reg.cleanupTk_heap_self σ i hmem, ?_, ?_⟩
    · rw [h2]
    · rw [h2]

theorem c3_idempotent_cleanup_amended_witness :
    (Core.closedTk (Core.cleanup c3ctk [] none).1
      ∧ Core.cleanup (Core.cleanup c3ctk [] none).1 [] none
          = ((Core.cleanup c3ctk [] none).1, [], [], false)
      ∧ sigtermCount (Core.cleanupSeq c3ctk [] [none, none]).2.2 ≤ 1)
    ∧ ((Reg.cleanupTk c3σB 3).active = c3σB.active.erase 3
        ∧ Reg.alookup (Reg.cleanupTk c3σB 3).heap 3
            = (Reg.alookup c3σB.heap 3).map Reg.closeRTk
        ∧ (Reg.cleanupTk (Reg.cleanupTk c3σB 3) 3).heap = (Reg.cleanupTk c3σB 3).heap
        ∧ (Reg.cleanupTk (Reg.cleanupTk c3σB 3) 3).active
            = (Reg.cleanupTk c3σB 3).active) :=
  ⟨⟨(c3_idempotent_cleanup_amended.1 c3ctk [] none).1,
    (c3_idempotent_cleanup_amended.1 c3ctk [] none).2.1 [] none,
    (c3_idempotent_cleanup_amended.1 c3ctk [] none).2.2 [none]⟩,
   c3_idempotent_cleanup_amended.2 c3σB 3 (by decide) (by decide)⟩

/-- C4: the forced kill never fires. cleanup nulls this.process
synchronously after scheduling the 2000 ms SIGKILL timer, and the timer
callback guards on this.process, so when the timer fires the guard reads
null and no SIGKILL is ever sent, for every toolkit and every process exit
state at timer time, including a process that survived SIGTERM past the
grace window. At the concrete failing input, cleanup sends SIGTERM to pid
7 and schedules the timer, yet firing the timer while pid 7 still runs
produces no event. -/
theorem c4_forced_kill_never_fires :
    (∀ tk reg ec f, Core.fireKillTimer (Core.cleanup tk reg ec).1 f = [])
    ∧ ((Core.cleanup c4tk [] none).2.2.1 = [Ev.sigterm 7]
        ∧ (Core.cleanup c4tk [] none).2.2.2 = true
        ∧ Core.fireKillTimer (Core.cleanup c4tk [] none).1 none = []) := by
  constructor
  · intro tk reg ec f
    have h := (Core.cleanup_closed tk reg ec).2.2.2.2
    unfold Core.fireKillTimer
    rw [h]
  · exact ⟨rfl, rfl, rfl⟩

/-- C5: startup readiness. With a command configured, the spawn step
succeeds exactly when the child has not exited by the time the startup
grace timer fires (exitCode still unset); if it exited earlier the step
reports a startup error and no success. -/
theorem c5_startup_readiness (tk : Core.CTk) (reg : List String)
    (baseEnv : List (String × String)) (cfg : Core.Config) (env : Core.CoreEnv)
    (h : Core.optStrFalsy cfg.command = false) :
    (Core.spawnProcess tk reg baseEnv cfg env).2.2.2 = Core.SpawnRes.ok
      ↔ env.exitAtStartupTimeout = none := by
  rw [Core.spawnProcess_eq_of_cmd _ _ _ _ _ h]
  dsimp only
  split_ifs with hx
  · simp [hx]
  · simp [hx]

theorem c5_startup_readiness_witness :
    ((Core.spawnProcess c5tk [] [] c5cfg c5envOk).2.2.2 = Core.SpawnRes.ok
      ↔ c5envOk.exitAtStartupTimeout = none)
    ∧ ((Core.spawnProcess c5tk [] [] c5cfg c5envBad).2.2.2 = Core.SpawnRes.ok
      ↔ c5envBad.exitAtStartupTimeout = none) :=
  ⟨c5_startup_readiness c5tk [] [] c5cfg c5envOk (by decide),
   c5_startup_readiness c5tk [] [] c5cfg c5envBad (by decide)⟩

/-- C6 counterexample: two configuration texts that parse to the same
configuration value (they differ only in whitespace) receive different
fingerprints, because the fingerprint is JSON.stringify of the raw text;
so fingerprints are not equal exactly when the configurations are the
same, and incidental formatting does change the fingerprint. -/
theorem c6_fingerprint_counterexample :
    jsonParse c6cfgA = jsonParse c6cfgB
    ∧ (jsonParse c6cfgA).isSome = true
    ∧ fingerprint c6cfgA ≠ fingerprint c6cfgB :=
  ⟨rfl, rfl, by decide⟩

/-- C6 amended: the fingerprint is deterministic and injective in the raw
configuration text: two texts receive equal fingerprints exactly when they
are equal as strings (so identical text always matches, and any textual
difference, including incidental formatting, changes the fingerprint).
The BraveSearch fingerprint is likewise injective in the API key. -/
theorem c6_fingerprint_amended :
    (∀ s t : String, fingerprint s = fingerprint t ↔ s = t)
    ∧ (∀ k1 k2 : String, braveConfigHash k1 = braveConfigHash k2 ↔ k1 = k2) :=
  ⟨fingerprint_inj, braveConfigHash_inj⟩

/-- C7 counterexample: a configuration text that strict JSON parsing
rejects is nevertheless accepted, because convertToValidJSONString falls
back to evaluating the text as a JavaScript object literal; the
configuration is therefore not accepted only when it parses as standard
JSON, and the text is evaluated as code. -/
theorem c7_strict_parsing_counterexample :
    jsonParse c7bad = none
    ∧ parseServerParams c7bad = some (.arr [.num 1, .num 2]) :=
  ⟨rfl, rfl⟩

/-- C7 amended: configuration parsing is strict-first with an evaluation
fallback: a text that parses as standard JSON is accepted with exactly its
JSON.parse value; when strict parsing fails the text IS evaluated as a
JavaScript object literal and its value used; the operation fails with the
configuration-format error exactly when both the strict parse and the
object-literal evaluation fail. -/
theorem c7_strict_parsing_amended (s : String) :
    (∀ v, jsonParse s = some v → parseServerParams s = some v)
    ∧ (jsonParse s = none → parseServerParams s = relaxedEval s)
    ∧ (parseServerParams s = none ↔ jsonParse s = none ∧ relaxedEval s = none) := by
  unfold parseServerParams
  cases h : jsonParse s <;> simp [h]

theorem c7_strict_parsing_amended_witness :
    parseServerParams "[1,2]" = some (.arr [.num 1, .num 2])
    ∧ parseServerParams "[1,2,]" = relaxedEval "[1,2,]" :=
  ⟨(c7_strict_parsing_amended "[1,2]").1 _ rfl,
   (c7_strict_parsing_amended "[1,2,]").2.1 rfl⟩

/-- String-typed command field is falsy exactly when absent or empty. -/
theorem optStrFalsy_iff (c : Option String) :
    Core.optStrFalsy c = true ↔ (c = none ∨ c = some "") := by
  cases c <;> simp [Core.optStrFalsy]

/-- C8: missing-command configuration error. In the process-owning
variant, the spawn step fails with the command-required error exactly when
the command field is absent or empty, and in that case it returns before
anything is launched: no spawn event, no registry entry, no state change.
In the registry variant, setupTransport fails exactly when the command
property is absent, or is a string and empty. -/
theorem c8_missing_command :
    (∀ tk reg baseEnv cfg env,
      (((Core.spawnProcess tk reg baseEnv cfg env).2.2.2 = Core.SpawnRes.errMissingCommand)
        ↔ (cfg.command = none ∨ cfg.command = some ""))
      ∧ (Core.optStrFalsy cfg.command = true →
          Core.spawnProcess tk reg baseEnv cfg env = (tk, reg, [], .errMissingCommand)))
    ∧ (∀ tk : Reg.RTk, ∀ s : String,
        getField tk.server_config "command" = some (.str s) →
        ((Reg.setupTransport tk).2 = false ↔ s = ""))
    ∧ (∀ tk : Reg.RTk, getField tk.server_config "command" = none →
        (Reg.setupTransport tk).2 = false) := by
  refine ⟨?_, ?_, ?_⟩
  · intro tk reg baseEnv cfg env
    constructor
    · by_cases h : Core.optStrFalsy cfg.command
      · rw [Core.spawnProcess_eq_of_falsy _ _ _ _ _ h]
        simpa using (optStrFalsy_iff cfg.command).mp h
      · rw [Core.spawnProcess_eq_of_cmd _ _ _ _ _ (by simpa using h)]
        have h2 := (optStrFalsy_iff cfg.command).not.mp h
        dsimp only
        split_ifs <;> simpa using h2
    · intro h
      exact Core.spawnProcess_eq_of_falsy _ _ _ _ _ h
  · intro tk s h
    unfold Reg.setupTransport
    rw [h]
    by_cases hs : s = ""
    · subst hs; simp [jfalsy, truthy]
    · simp [jfalsy, truthy, hs]
  · intro tk h
    unfold Reg.setupTransport
    rw [h]
    simp [jfalsy]

theorem c8_missing_command_witness :
    Core.spawnProcess c5tk [] [] c8cfgMissing c5envOk = (c5tk, [], [], .errMissingCommand)
    ∧ ((Reg.setupTransport c8tkEmpty).2 = false ↔ ("" : String) = "")
    ∧ (Reg.setupTransport c8tkNone).2 = false :=
  ⟨(c8_missing_command.1 c5tk [] [] c8cfgMissing c5envOk).2 (by decide),
   c8_missing_command.2.1 c8tkEmpty "" (by rfl),
   c8_missing_command.2.2 c8tkNone (by rfl)⟩

/-- C9: at-most-once shutdown. From a state where no shutdown has run,
any nonempty sequence of termination signals is equivalent to a single
run of the handler body; a second shutdown call on the resulting state is
an exact no-op; the single run empties the activeToolkits registry (given
the set has no duplicate registrations) and, for every toolkit that was
registered at that moment, invokes its cleanup and leaves it closed on
the heap, with every cleanup completed before the handler returns. -/
theorem c9_shutdown_at_most_once (σ : Reg.MSt)
    (hs : σ.shuttingDown = false) (hnd : σ.active.Nodup) :
    (∀ s sigs, Reg.runSignals σ (s :: sigs) = Reg.shutdownGracefully σ)
    ∧ Reg.shutdownGracefully (Reg.shutdownGracefully σ) = Reg.shutdownGracefully σ
    ∧ (Reg.shutdownGracefully σ).active = []
    ∧ (∀ i ∈ σ.active,
        i ∈ (Reg.shutdownGracefully σ).cleanupCalls
        ∧ Reg.alookup (Reg.shutdownGracefully σ).heap i
            = (Reg.alookup σ.heap i).map Reg.closeRTk) := by
  refine ⟨fun s sigs => Reg.runSignals_eq_shutdown s sigs σ, Reg.shutdown_idem σ, ?_, ?_⟩
  · unfold Reg.shutdownGracefully
    rw [if_neg (by simp [hs])]
    rw [Reg.cleanAll_active]
    exact Reg.eraseAll_self σ.active hnd
  · intro i hi
    unfold Reg.shutdownGracefully
    rw [if_neg (by simp [hs])]
    constructor
    · exact Reg.cleanAll_calls_mem _ _ _ hi
    · exact Reg.cleanAll_heap_closed σ.active { σ with shuttingDown := true }
        hnd (fun x hx => hx) i hi

theorem c9_shutdown_at_most_once_witness :
    Reg.runSignals c9σ ["SIGINT", "SIGTERM"] = Reg.shutdownGracefully c9σ
    ∧ Reg.shutdownGracefully (Reg.shutdownGracefully c9σ) = Reg.shutdownGracefully c9σ
    ∧ (Reg.shutdownGracefully c9σ).active = []
    ∧ (1 ∈ (Reg.shutdownGracefully c9σ).cleanupCalls
        ∧ Reg.alookup (Reg.shutdownGracefully c9σ).heap 1
            = (Reg.alookup c9σ.heap 1).map Reg.closeRTk) := by
  obtain ⟨h1, h2, h3, h4⟩ := c9_shutdown_at_most_once c9σ rfl (by decide)
  exact ⟨h1 "SIGINT" ["SIGTERM"], h2, h3, h4 1 (by decide)⟩

/-- C10 counterexample: with useAllActions off, a selected-actions input
that parses as JSON but not to an array (here the JSON string literal for
the one-character string a) is used as-is: the tool named a is selected
because the string includes it as a substring, so init returns a nonempty
tool list where the claim requires the empty list. -/
theorem c10_action_selection_counterexample :
    jsonParse "\"a\"" = some (.str "a")
    ∧ initSelectTools (some false) (some (.str "\"a\"")) ["a"] = .ok ["a"]
    ∧ (Except.ok ["a"] : Except Unit (List String)) ≠ .ok [] := by
  refine ⟨rfl, rfl, ?_⟩
  intro h
  injection h with h2
  simp at h2

/-- C10 amended: fail-closed action selection holds for the absent,
JSON-parse-failure, and array cases, but not for other parse results:
with useAllActions resolved true (set or defaulted) every tool is
returned; with it false, an absent input or one whose JSON parse throws
yields no tools; an input parsing to an array selects exactly the tools
whose names are elements of the array (the empty array selecting none);
but an input parsing to a nonempty JSON string selects the tools whose
names are substrings of it, and an input parsing to a nonzero number
makes init throw a TypeError once any tool is tested. -/
theorem c10_action_selection_amended :
    (∀ input tools, initSelectTools (some true) input tools = .ok tools)
    ∧ (∀ input tools, initSelectTools none input tools = .ok tools)
    ∧ (∀ tools, initSelectTools (some false) none tools = .ok [])
    ∧ (∀ s tools, jsonParse s = none →
        initSelectTools (some false) (some (.str s)) tools = .ok [])
    ∧ (∀ s xs tools, jsonParse s = some (.arr xs) →
        initSelectTools (some false) (some (.str s)) tools
          = .ok (tools.filter
              (fun t => xs.any (fun x => match x with | .str u => u == t | _ => false))))
    ∧ (∀ s u tools, jsonParse s = some (.str u) → u ≠ "" →
        initSelectTools (some false) (some (.str s)) tools
          = .ok (tools.filter (fun t => jsStrIncludes u t)))
    ∧ (∀ s n t rest, jsonParse s = some (.num n) → n ≠ 0 →
        initSelectTools (some false) (some (.str s)) (t :: rest) = .error ()) := by
  refine ⟨fun input tools => rfl, fun input tools => rfl, fun tools => rfl, ?_, ?_, ?_, ?_⟩
  · intro s tools h
    by_cases hs : s = ""
    · subst hs
      rfl
    · simp [initSelectTools, resolveMcpActions, truthy, h, hs, jsLength]
  · intro s xs tools h
    have hs : s ≠ "" := by
      intro he
      subst he
      exact absurd h (by simp [jsonParse, jsonParseChars, parseVal, skipWs])
    have hres : resolveMcpActions (some (.str s)) = .arr xs := by
      simp [resolveMcpActions, truthy, hs, h]
    show (if jsLength (resolveMcpActions (some (.str s))) = some 0
        then (Except.ok [] : Except Unit (List String))
        else filterToolsJS tools (resolveMcpActions (some (.str s)))) = _
    rw [hres]
    cases xs with
    | nil => simp [jsLength, filterToolsJS_arr]
    | cons x rest =>
      rw [if_neg (by simp [jsLength])]
      exact filterToolsJS_arr tools (x :: rest)
  · intro s u tools h hu
    have hs : s ≠ "" := by
      intro he
      subst he
      exact absurd h (by simp [jsonParse, jsonParseChars, parseVal, skipWs])
    have hres : resolveMcpActions (some (.str s)) = .str u := by
      simp [resolveMcpActions, truthy, hs, h]
    show (if jsLength (resolveMcpActions (some (.str s))) = some 0
        then (Except.ok [] : Except Unit (List String))
        else filterToolsJS tools (resolveMcpActions (some (.str s)))) = _
    rw [hres]
    rw [if_neg ?hlen]
    case hlen =>
      simp only [jsLength, Option.some.injEq]
      intro hl
      exact hu (by
        cases u with
        | mk d =>
          cases d with
          | nil => rfl
          | cons a b => simp at hl)
    exact filterToolsJS_str tools u
  · intro s n t rest h hn
    have hs : s ≠ "" := by
      intro he
      subst he
      exact absurd h (by simp [jsonParse, jsonParseChars, parseVal, skipWs])
    have hres : resolveMcpActions (some (.str s)) = .num n := by
      simp [resolveMcpActions, truthy, hs, h]
    show (if jsLength (resolveMcpActions (some (.str s))) = some 0
        then (Except.ok [] : Except Unit (List String))
        else filterToolsJS (t :: rest) (resolveMcpActions (some (.str s)))) = _
    rw [hres]
    rw [if_neg (by simp [jsLength])]
    rfl

theorem c10_action_selection_amended_witness :
    initSelectTools (some true) (some (.str "x")) ["a", "b"] = .ok ["a", "b"]
    ∧ initSelectTools (some false) none ["a"] = .ok []
    ∧ initSelectTools (some false) (some (.str "oops")) ["a"] = .ok []
    ∧ initSelectTools (some false) (some (.str "[\"a\"]")) ["a", "b"]
        = .ok (["a", "b"].filter
            (fun t => [JVal.str "a"].any
              (fun x => match x with | .str u => u == t | _ => false)))
    ∧ initSelectTools (some false) (some (.str "\"ab\"")) ["a"]
        = .ok (["a"].filter (fun t => jsStrIncludes "ab" t))
    ∧ initSelectTools (some false) (some (.str "7")) ["a"] = .error () :=
  ⟨c10_action_selection_amended.1 (some (.str "x")) ["a", "b"],
   c10_action_selection_amended.2.2.1 ["a"],
   c10_action_selection_amended.2.2.2.1 "oops" ["a"] rfl,
   c10_action_selection_amended.2.2.2.2.1 "[\"a\"]" [JVal.str "a"] ["a", "b"] rfl,
   c10_action_selection_amended.2.2.2.2.2.1 "\"ab\"" "ab" ["a"] rfl (by decide),
   c10_action_selection_amended.2.2.2.2.2.2 "7" 7 "a" [] rfl (by decide)⟩
